import Mathlib

/-!
Shallow embedding of `main.c` from the PSoC 6 dual compare/capture PWM
code example.  The persistent state of the program is three scalar
globals (`period : uint32_t`, `compare0_value compare1_value : int32_t`)
together with the volatile flag `uart_read_flag : bool`.  Hardware and
terminal interactions are recorded as an explicit effect trace.

Machine integers are modelled over `Int`/`Nat`:
`int32_t` values live in `Int` and every C arithmetic step that could
leave the 32-bit range passes through `toInt32c` (two's-complement
reduction mod 2^32); `uint32_t` values live in `Nat`.  C's usual
arithmetic conversions for the mixed comparisons `int32_t > uint32_t`
(the operand is converted to `uint32_t`) are modelled by `toUInt32c`,
and the assignment of the `uint32_t` period to an `int32_t` variable by
`toInt32c` of the coerced value.
-/

namespace PwmDualCompare

/-- Macro `COMPARE_VALUE_DELTA` (value 100) from main.c. -/
def COMPARE_VALUE_DELTA : Int := 100

/-- Macro `DELAY_BETWEEN_READ_MS` (value 100) from main.c. -/
def DELAY_BETWEEN_READ_MS : Nat := 100

/-- `CY_RSLT_SUCCESS` is the zero result code of the Cypress libraries. -/
def CY_RSLT_SUCCESS : Nat := 0

/-- Bit of the `cyhal_uart_event_t` bitmask signalling completed RX.
The numeric value comes from the external HAL header; only its being a
fixed single bit matters to the code under verification. -/
def CYHAL_UART_IRQ_RX_DONE : Nat := 32

/-- Bit of the `cyhal_uart_event_t` bitmask signalling an RX error. -/
def CYHAL_UART_IRQ_RX_ERROR : Nat := 64

/-- Conversion of a mathematical integer to `uint32_t` (reduction mod
2^32), as performed by C's usual arithmetic conversions when an
`int32_t` operand meets a `uint32_t` operand. -/
def toUInt32c (z : Int) : Nat := (z % (2 ^ 32)).toNat

/-- Conversion of a mathematical integer to `int32_t` under the
two's-complement representation: reduce mod 2^32 into [-2^31, 2^31). -/
def toInt32c (z : Int) : Int := (z + 2 ^ 31) % 2 ^ 32 - 2 ^ 31

/-- The persistent PWM-related globals of main.c: `period` (uint32_t,
fetched once from the TCPWM block) and the two compare values
(int32_t). -/
structure PwmState where
  period : Nat
  compare0_value : Int
  compare1_value : Int
deriving DecidableEq, Repr

/-- Observable actions of `process_key_press`: terminal prints, the two
buffered compare-register writes, and the capture-or-swap trigger. -/
inductive Effect where
  | printKey : Char → Effect
  | printWrongKey : Effect
  | printInstructions : Effect
  | printStatus : Nat → Int → Int → Effect
  | setCompare0BufVal : Int → Effect
  | setCompare1BufVal : Int → Effect
  | triggerCaptureOrSwap : Effect
deriving DecidableEq, Repr

/-- Case 's' of the switch in `process_key_press` (increase duty
cycle): add the delta to both compare values, then clamp each to the
period using the C comparison `int32_t > uint32_t`. -/
def update_s (s : PwmState) : PwmState :=
  let c0 := toInt32c (s.compare0_value + COMPARE_VALUE_DELTA)
  let c1 := toInt32c (s.compare1_value + COMPARE_VALUE_DELTA)
  let c0 := if toUInt32c c0 > s.period then toInt32c (s.period : Int) else c0
  let c1 := if toUInt32c c1 > s.period then toInt32c (s.period : Int) else c1
  { s with compare0_value := c0, compare1_value := c1 }

/-- Case 'w' of the switch in `process_key_press` (decrease duty
cycle): subtract the delta from both compare values, then clamp each to
zero (a pure signed comparison). -/
def update_w (s : PwmState) : PwmState :=
  let c0 := toInt32c (s.compare0_value - COMPARE_VALUE_DELTA)
  let c1 := toInt32c (s.compare1_value - COMPARE_VALUE_DELTA)
  let c0 := if c0 < 0 then 0 else c0
  let c1 := if c1 < 0 then 0 else c1
  { s with compare0_value := c0, compare1_value := c1 }

/-- Case 'a' of the switch in `process_key_press` (shift waveform
left): subtract the delta from compare0, add it to compare1, clamping
compare0 to zero and compare1 to the period. -/
def update_a (s : PwmState) : PwmState :=
  let c0 := toInt32c (s.compare0_value - COMPARE_VALUE_DELTA)
  let c1 := toInt32c (s.compare1_value + COMPARE_VALUE_DELTA)
  let c0 := if c0 < 0 then 0 else c0
  let c1 := if toUInt32c c1 > s.period then toInt32c (s.period : Int) else c1
  { s with compare0_value := c0, compare1_value := c1 }

/-- Case 'd' of the switch in `process_key_press` (shift waveform
right): add the delta to compare0, subtract it from compare1, clamping
compare0 to the period and compare1 to zero. -/
def update_d (s : PwmState) : PwmState :=
  let c0 := toInt32c (s.compare0_value + COMPARE_VALUE_DELTA)
  let c1 := toInt32c (s.compare1_value - COMPARE_VALUE_DELTA)
  let c0 := if toUInt32c c0 > s.period then toInt32c (s.period : Int) else c0
  let c1 := if c1 < 0 then 0 else c1
  { s with compare0_value := c0, compare1_value := c1 }

/-- Tail of `process_key_press` shared by the four recognised keys: the
status printf, the writes of the (already updated) compare values to
the CC0/CC1 buffer registers, and the capture-or-swap trigger. -/
def finishUpdate (key_pressed : Char) (s : PwmState) : PwmState × List Effect :=
  (s, [Effect.printKey key_pressed,
       Effect.printStatus s.period s.compare0_value s.compare1_value,
       Effect.setCompare0BufVal s.compare0_value,
       Effect.setCompare1BufVal s.compare1_value,
       Effect.triggerCaptureOrSwap])

/-- `process_key_press` from main.c: print the key, dispatch on it
('s', 'w', 'a', 'd' update and clamp the compare values, then write the
buffer registers and trigger the swap; any other key prints the
instructions and returns).  The result pairs the new globals with the
effect trace in program order. -/
def process_key_press (key_pressed : Char) (s : PwmState) : PwmState × List Effect :=
  if key_pressed = 's' then finishUpdate key_pressed (update_s s)
  else if key_pressed = 'w' then finishUpdate key_pressed (update_w s)
  else if key_pressed = 'a' then finishUpdate key_pressed (update_a s)
  else if key_pressed = 'd' then finishUpdate key_pressed (update_d s)
  else (s, [Effect.printKey key_pressed, Effect.printWrongKey,
            Effect.printInstructions])

/-- `uart_event_handler` from main.c, acting on the `uart_read_flag`
global.  Result: (new value of `uart_read_flag`, whether `CY_ASSERT(0)`
fired).  The flag is set exactly when the event bitmask contains
`CYHAL_UART_IRQ_RX_DONE`; otherwise the handler hits its assertion and
leaves the flag alone. -/
def uart_event_handler (event : Nat) (uart_read_flag : Bool) : Bool × Bool :=
  if event &&& CYHAL_UART_IRQ_RX_DONE = CYHAL_UART_IRQ_RX_DONE then
    (true, false)
  else
    (uart_read_flag, true)

/-- The init-failure check at the top of `main`: `CY_ASSERT(0)` is
executed iff `cybsp_init` returned something other than
`CY_RSLT_SUCCESS`. -/
def main_init_asserts (cybsp_init_result : Nat) : Bool :=
  cybsp_init_result != CY_RSLT_SUCCESS

/-- State visible to one iteration of the infinite loop in `main`: the
PWM globals, the volatile `uart_read_flag`, and the byte most recently
deposited by the asynchronous read into `uart_read_value`. -/
structure LoopState where
  pwm : PwmState
  uart_read_flag : Bool
  uart_read_value : Char
deriving DecidableEq, Repr

/-- Observable actions of one main-loop iteration. -/
inductive MainEffect where
  | readAsync : MainEffect
  | clearReadFlag : MainEffect
  | keyEffect : Effect → MainEffect
  | delayMs : Nat → MainEffect
deriving DecidableEq, Repr

/-- One iteration of the `for (;;)` loop in `main`: start an
asynchronous read; if `uart_read_flag` is set, clear it and process the
read key; finally delay.  The trace lists the actions in program
order. -/
def main_loop_iter (s : LoopState) : LoopState × List MainEffect :=
  if s.uart_read_flag then
    let r := process_key_press s.uart_read_value s.pwm
    ({ s with pwm := r.1, uart_read_flag := false },
     MainEffect.readAsync :: MainEffect.clearReadFlag ::
       (r.2.map MainEffect.keyEffect ++
        [MainEffect.delayMs DELAY_BETWEEN_READ_MS]))
  else
    (s, [MainEffect.readAsync, MainEffect.delayMs DELAY_BETWEEN_READ_MS])

/-! ### Helper lemmas about the machine-integer conversions -/

/-- A value already inside the `int32_t` range is unchanged by the
two's-complement reduction. -/
lemma toInt32c_of_bounds (z : Int) (h1 : -(2 ^ 31) ≤ z) (h2 : z < 2 ^ 31) :
    toInt32c z = z := by
  unfold toInt32c
  rw [Int.emod_eq_of_lt (by omega) (by omega)]
  omega

/-- For a nonnegative in-range value, the C comparison
`(uint32_t)z > p` agrees with the mathematical comparison. -/
lemma toUInt32c_gt_iff (z : Int) (p : Nat) (h1 : 0 ≤ z) (h2 : z < 2 ^ 32) :
    toUInt32c z > p ↔ z > (p : Int) := by
  unfold toUInt32c
  rw [Int.emod_eq_of_lt h1 h2]
  omega

/-! ### Per-branch characterisations of the compare-value updates.

Throughout, the preconditions are those of the specification: both
compare values lie in `[0, period]` and the period is at most
`2^31 - 101`, so that no addition or subtraction of the delta leaves
the `int32_t` range and every mixed-sign comparison is exact. -/

lemma update_s_period (s : PwmState) : (update_s s).period = s.period := rfl

lemma update_w_period (s : PwmState) : (update_w s).period = s.period := rfl

lemma update_a_period (s : PwmState) : (update_a s).period = s.period := rfl

lemma update_d_period (s : PwmState) : (update_d s).period = s.period := rfl

lemma update_s_vals (s : PwmState) (hp : s.period ≤ 2 ^ 31 - 101)
    (h00 : 0 ≤ s.compare0_value) (h01 : s.compare0_value ≤ (s.period : Int))
    (h10 : 0 ≤ s.compare1_value) (h11 : s.compare1_value ≤ (s.period : Int)) :
    (update_s s).compare0_value = min (s.compare0_value + 100) (s.period : Int) ∧
    (update_s s).compare1_value = min (s.compare1_value + 100) (s.period : Int) := by
  have e0 : toInt32c (s.compare0_value + COMPARE_VALUE_DELTA)
      = s.compare0_value + 100 := by
    unfold COMPARE_VALUE_DELTA
    exact toInt32c_of_bounds _ (by omega) (by omega)
  have e1 : toInt32c (s.compare1_value + COMPARE_VALUE_DELTA)
      = s.compare1_value + 100 := by
    unfold COMPARE_VALUE_DELTA
    exact toInt32c_of_bounds _ (by omega) (by omega)
  have ep : toInt32c (s.period : Int) = (s.period : Int) :=
    toInt32c_of_bounds _ (by omega) (by omega)
  have i0 : (toUInt32c (s.compare0_value + 100) > s.period) ↔
      s.compare0_value + 100 > (s.period : Int) :=
    toUInt32c_gt_iff _ _ (by omega) (by omega)
  have i1 : (toUInt32c (s.compare1_value + 100) > s.period) ↔
      s.compare1_value + 100 > (s.period : Int) :=
    toUInt32c_gt_iff _ _ (by omega) (by omega)
  simp only [update_s, e0, e1, ep, i0, i1]
  constructor <;> split_ifs <;> omega

lemma update_w_vals (s : PwmState) (hp : s.period ≤ 2 ^ 31 - 101)
    (h00 : 0 ≤ s.compare0_value) (h01 : s.compare0_value ≤ (s.period : Int))
    (h10 : 0 ≤ s.compare1_value) (h11 : s.compare1_value ≤ (s.period : Int)) :
    (update_w s).compare0_value = max (s.compare0_value - 100) 0 ∧
    (update_w s).compare1_value = max (s.compare1_value - 100) 0 := by
  have e0 : toInt32c (s.compare0_value - COMPARE_VALUE_DELTA)
      = s.compare0_value - 100 := by
    unfold COMPARE_VALUE_DELTA
    exact toInt32c_of_bounds _ (by omega) (by omega)
  have e1 : toInt32c (s.compare1_value - COMPARE_VALUE_DELTA)
      = s.compare1_value - 100 := by
    unfold COMPARE_VALUE_DELTA
    exact toInt32c_of_bounds _ (by omega) (by omega)
  simp only [update_w, e0, e1]
  constructor <;> split_ifs <;> omega

lemma update_a_vals (s : PwmState) (hp : s.period ≤ 2 ^ 31 - 101)
    (h00 : 0 ≤ s.compare0_value) (h01 : s.compare0_value ≤ (s.period : Int))
    (h10 : 0 ≤ s.compare1_value) (h11 : s.compare1_value ≤ (s.period : Int)) :
    (update_a s).compare0_value = max (s.compare0_value - 100) 0 ∧
    (update_a s).compare1_value = min (s.compare1_value + 100) (s.period : Int) := by
  have e0 : toInt32c (s.compare0_value - COMPARE_VALUE_DELTA)
      = s.compare0_value - 100 := by
    unfold COMPARE_VALUE_DELTA
    exact toInt32c_of_bounds _ (by omega) (by omega)
  have e1 : toInt32c (s.compare1_value + COMPARE_VALUE_DELTA)
      = s.compare1_value + 100 := by
    unfold COMPARE_VALUE_DELTA
    exact toInt32c_of_bounds _ (by omega) (by omega)
  have ep : toInt32c (s.period : Int) = (s.period : Int) :=
    toInt32c_of_bounds _ (by omega) (by omega)
  have i1 : (toUInt32c (s.compare1_value + 100) > s.period) ↔
      s.compare1_value + 100 > (s.period : Int) :=
    toUInt32c_gt_iff _ _ (by omega) (by omega)
  simp only [update_a, e0, e1, ep, i1]
  constructor <;> split_ifs <;> omega

lemma update_d_vals (s : PwmState) (hp : s.period ≤ 2 ^ 31 - 101)
    (h00 : 0 ≤ s.compare0_value) (h01 : s.compare0_value ≤ (s.period : Int))
    (h10 : 0 ≤ s.compare1_value) (h11 : s.compare1_value ≤ (s.period : Int)) :
    (update_d s).compare0_value = min (s.compare0_value + 100) (s.period : Int) ∧
    (update_d s).compare1_value = max (s.compare1_value - 100) 0 := by
  have e0 : toInt32c (s.compare0_value + COMPARE_VALUE_DELTA)
      = s.compare0_value + 100 := by
    unfold COMPARE_VALUE_DELTA
    exact toInt32c_of_bounds _ (by omega) (by omega)
  have e1 : toInt32c (s.compare1_value - COMPARE_VALUE_DELTA)
      = s.compare1_value - 100 := by
    unfold COMPARE_VALUE_DELTA
    exact toInt32c_of_bounds _ (by omega) (by omega)
  have ep : toInt32c (s.period : Int) = (s.period : Int) :=
    toInt32c_of_bounds _ (by omega) (by omega)
  have i0 : (toUInt32c (s.compare0_value + 100) > s.period) ↔
      s.compare0_value + 100 > (s.period : Int) :=
    toUInt32c_gt_iff _ _ (by omega) (by omega)
  simp only [update_d, e0, e1, ep, i0]
  constructor <;> split_ifs <;> omega

/-! ### Dispatch lemmas for the switch in `process_key_press` -/

lemma process_key_press_s (s : PwmState) :
    process_key_press 's' s = finishUpdate 's' (update_s s) := rfl

lemma process_key_press_w (s : PwmState) :
    process_key_press 'w' s = finishUpdate 'w' (update_w s) := rfl

lemma process_key_press_a (s : PwmState) :
    process_key_press 'a' s = finishUpdate 'a' (update_a s) := rfl

lemma process_key_press_d (s : PwmState) :
    process_key_press 'd' s = finishUpdate 'd' (update_d s) := rfl

lemma process_key_press_other (key : Char) (s : PwmState)
    (h1 : key ≠ 's') (h2 : key ≠ 'w') (h3 : key ≠ 'a') (h4 : key ≠ 'd') :
    process_key_press key s =
      (s, [Effect.printKey key, Effect.printWrongKey,
           Effect.printInstructions]) := by
  simp [process_key_press, h1, h2, h3, h4]

/-- The `period` global is never written by `process_key_press`. -/
lemma process_key_press_period (key : Char) (s : PwmState) :
    (process_key_press key s).1.period = s.period := by
  unfold process_key_press
  split_ifs <;> rfl

/-! ### Claim theorems -/

/-- C1: for every key in {'s','w','a','d'}, if before the call both
compare values lie in [0, period] and period ≤ 2^31 - 101, then after
`process_key_press` both compare values again lie in [0, period]. -/
theorem C1_compare_values_stay_in_range (key : Char) (s : PwmState)
    (hkey : key = 's' ∨ key = 'w' ∨ key = 'a' ∨ key = 'd')
    (hp : s.period ≤ 2 ^ 31 - 101)
    (h00 : 0 ≤ s.compare0_value) (h01 : s.compare0_value ≤ (s.period : Int))
    (h10 : 0 ≤ s.compare1_value) (h11 : s.compare1_value ≤ (s.period : Int)) :
    0 ≤ (process_key_press key s).1.compare0_value ∧
    (process_key_press key s).1.compare0_value ≤ (s.period : Int) ∧
    0 ≤ (process_key_press key s).1.compare1_value ∧
    (process_key_press key s).1.compare1_value ≤ (s.period : Int) := by
  rcases hkey with h | h | h | h <;> subst h
  · have hv := update_s_vals s hp h00 h01 h10 h11
    simp only [process_key_press_s, finishUpdate]
    rw [hv.1, hv.2]
    omega
  · have hv := update_w_vals s hp h00 h01 h10 h11
    simp only [process_key_press_w, finishUpdate]
    rw [hv.1, hv.2]
    omega
  · have hv := update_a_vals s hp h00 h01 h10 h11
    simp only [process_key_press_a, finishUpdate]
    rw [hv.1, hv.2]
    omega
  · have hv := update_d_vals s hp h00 h01 h10 h11
    simp only [process_key_press_d, finishUpdate]
    rw [hv.1, hv.2]
    omega

theorem C1_witness :
    0 ≤ (process_key_press 's' ⟨1000, 500, 500⟩).1.compare0_value ∧
    (process_key_press 's' ⟨1000, 500, 500⟩).1.compare0_value ≤ ((1000 : Nat) : Int) ∧
    0 ≤ (process_key_press 's' ⟨1000, 500, 500⟩).1.compare1_value ∧
    (process_key_press 's' ⟨1000, 500, 500⟩).1.compare1_value ≤ ((1000 : Nat) : Int) :=
  C1_compare_values_stay_in_range 's' ⟨1000, 500, 500⟩ (Or.inl rfl)
    (by decide) (by decide) (by decide) (by decide) (by decide)

/-- C2: under the same preconditions, `process_key_press` performs the
clamped addition/subtraction of the constant 100: key 's' yields
(min(old0+100, period), min(old1+100, period)); 'w' yields
(max(old0-100, 0), max(old1-100, 0)); 'a' yields
(max(old0-100, 0), min(old1+100, period)); 'd' yields
(min(old0+100, period), max(old1-100, 0)). -/
theorem C2_clamped_add_sub (s : PwmState)
    (hp : s.period ≤ 2 ^ 31 - 101)
    (h00 : 0 ≤ s.compare0_value) (h01 : s.compare0_value ≤ (s.period : Int))
    (h10 : 0 ≤ s.compare1_value) (h11 : s.compare1_value ≤ (s.period : Int)) :
    ((process_key_press 's' s).1.compare0_value
        = min (s.compare0_value + 100) (s.period : Int) ∧
     (process_key_press 's' s).1.compare1_value
        = min (s.compare1_value + 100) (s.period : Int)) ∧
    ((process_key_press 'w' s).1.compare0_value
        = max (s.compare0_value - 100) 0 ∧
     (process_key_press 'w' s).1.compare1_value
        = max (s.compare1_value - 100) 0) ∧
    ((process_key_press 'a' s).1.compare0_value
        = max (s.compare0_value - 100) 0 ∧
     (process_key_press 'a' s).1.compare1_value
        = min (s.compare1_value + 100) (s.period : Int)) ∧
    ((process_key_press 'd' s).1.compare0_value
        = min (s.compare0_value + 100) (s.period : Int) ∧
     (process_key_press 'd' s).1.compare1_value
        = max (s.compare1_value - 100) 0) := by
  refine ⟨?_, ?_, ?_, ?_⟩
  · simp only [process_key_press_s, finishUpdate]
    exact update_s_vals s hp h00 h01 h10 h11
  · simp only [process_key_press_w, finishUpdate]
    exact update_w_vals s hp h00 h01 h10 h11
  · simp only [process_key_press_a, finishUpdate]
    exact update_a_vals s hp h00 h01 h10 h11
  · simp only [process_key_press_d, finishUpdate]
    exact update_d_vals s hp h00 h01 h10 h11

theorem C2_witness :
    ((process_key_press 's' ⟨1000, 950, 40⟩).1.compare0_value
        = min ((950 : Int) + 100) ((1000 : Nat) : Int) ∧
     (process_key_press 's' ⟨1000, 950, 40⟩).1.compare1_value
        = min ((40 : Int) + 100) ((1000 : Nat) : Int)) ∧
    ((process_key_press 'w' ⟨1000, 950, 40⟩).1.compare0_value
        = max ((950 : Int) - 100) 0 ∧
     (process_key_press 'w' ⟨1000, 950, 40⟩).1.compare1_value
        = max ((40 : Int) - 100) 0) ∧
    ((process_key_press 'a' ⟨1000, 950, 40⟩).1.compare0_value
        = max ((950 : Int) - 100) 0 ∧
     (process_key_press 'a' ⟨1000, 950, 40⟩).1.compare1_value
        = min ((40 : Int) + 100) ((1000 : Nat) : Int)) ∧
    ((process_key_press 'd' ⟨1000, 950, 40⟩).1.compare0_value
        = min ((950 : Int) + 100) ((1000 : Nat) : Int) ∧
     (process_key_press 'd' ⟨1000, 950, 40⟩).1.compare1_value
        = max ((40 : Int) - 100) 0) :=
  C2_clamped_add_sub ⟨1000, 950, 40⟩
    (by decide) (by decide) (by decide) (by decide) (by decide)

/-- C3: for every key in {'s','w','a','d'}, the effect trace of
`process_key_press` writes the updated compare0 value to the CC0
buffer register and the updated compare1 value to the CC1 buffer
register, followed (after both writes) by exactly one compare-swap
trigger. -/
theorem C3_writes_then_single_swap (key : Char) (s : PwmState)
    (hkey : key = 's' ∨ key = 'w' ∨ key = 'a' ∨ key = 'd') :
    (process_key_press key s).2 =
      [Effect.printKey key,
       Effect.printStatus (process_key_press key s).1.period
         (process_key_press key s).1.compare0_value
         (process_key_press key s).1.compare1_value,
       Effect.setCompare0BufVal (process_key_press key s).1.compare0_value,
       Effect.setCompare1BufVal (process_key_press key s).1.compare1_value,
       Effect.triggerCaptureOrSwap] := by
  rcases hkey with h | h | h | h <;> subst h <;> rfl

theorem C3_witness :
    (process_key_press 'a' ⟨1000, 500, 500⟩).2 =
      [Effect.printKey 'a',
       Effect.printStatus (process_key_press 'a' ⟨1000, 500, 500⟩).1.period
         (process_key_press 'a' ⟨1000, 500, 500⟩).1.compare0_value
         (process_key_press 'a' ⟨1000, 500, 500⟩).1.compare1_value,
       Effect.setCompare0BufVal
         (process_key_press 'a' ⟨1000, 500, 500⟩).1.compare0_value,
       Effect.setCompare1BufVal
         (process_key_press 'a' ⟨1000, 500, 500⟩).1.compare1_value,
       Effect.triggerCaptureOrSwap] :=
  C3_writes_then_single_swap 'a' ⟨1000, 500, 500⟩ (Or.inr (Or.inr (Or.inl rfl)))

/-- C4 counterexample: the quoted behaviour does not hold for every
received character.  For the character 'x' the state is left untouched
and no compare-swap trigger (and no buffer write) is issued. -/
theorem C4_counterexample :
    (process_key_press 'x' ⟨1000, 200, 300⟩).1 = (⟨1000, 200, 300⟩ : PwmState) ∧
    Effect.triggerCaptureOrSwap ∉ (process_key_press 'x' ⟨1000, 200, 300⟩).2 := by
  decide

/-- C4 (amended): the quoted behaviour (update, clamp, two buffer
writes, one swap trigger) holds exactly for the four recognised
characters 's','w','a','d'; every other character leaves the state
unchanged and triggers no swap. -/
theorem C4_update_exactly_for_known_keys (key : Char) (s : PwmState) :
    (key = 's' ∨ key = 'w' ∨ key = 'a' ∨ key = 'd' →
      Effect.setCompare0BufVal (process_key_press key s).1.compare0_value
          ∈ (process_key_press key s).2 ∧
      Effect.setCompare1BufVal (process_key_press key s).1.compare1_value
          ∈ (process_key_press key s).2 ∧
      (process_key_press key s).2.count Effect.triggerCaptureOrSwap = 1) ∧
    (¬(key = 's' ∨ key = 'w' ∨ key = 'a' ∨ key = 'd') →
      (process_key_press key s).1 = s ∧
      Effect.triggerCaptureOrSwap ∉ (process_key_press key s).2) := by
  constructor
  · intro hkey
    rcases hkey with h | h | h | h <;> subst h <;>
      simp [process_key_press_s, process_key_press_w, process_key_press_a,
        process_key_press_d, finishUpdate, List.count_cons]
  · intro hkey
    push_neg at hkey
    obtain ⟨h1, h2, h3, h4⟩ := hkey
    rw [process_key_press_other key s h1 h2 h3 h4]
    simp

theorem C4_witness :
    Effect.setCompare0BufVal
        (process_key_press 'w' ⟨1000, 200, 300⟩).1.compare0_value
      ∈ (process_key_press 'w' ⟨1000, 200, 300⟩).2 ∧
    Effect.setCompare1BufVal
        (process_key_press 'w' ⟨1000, 200, 300⟩).1.compare1_value
      ∈ (process_key_press 'w' ⟨1000, 200, 300⟩).2 ∧
    (process_key_press 'w' ⟨1000, 200, 300⟩).2.count
        Effect.triggerCaptureOrSwap = 1 :=
  (C4_update_exactly_for_known_keys 'w' ⟨1000, 200, 300⟩).1
    (Or.inr (Or.inl rfl))

/-- C5: the period is read-only after start: no branch of
`process_key_press` and no iteration of the main loop ever modifies
it. -/
theorem C5_period_never_modified (key : Char) (s : PwmState)
    (ls : LoopState) :
    (process_key_press key s).1.period = s.period ∧
    (main_loop_iter ls).1.pwm.period = ls.pwm.period := by
  refine ⟨process_key_press_period key s, ?_⟩
  unfold main_loop_iter
  split_ifs with h
  · exact process_key_press_period ls.uart_read_value ls.pwm
  · rfl

/-- C6 counterexample: the init-failure assert is not the program's
only assertion: `uart_event_handler` executes `CY_ASSERT(0)` on an
event that lacks the RX-done bit (for instance an RX-error event),
which is not an initialization path. -/
theorem C6_counterexample :
    (uart_event_handler CYHAL_UART_IRQ_RX_ERROR false).2 = true := by
  decide

/-- C6 (amended): the program has exactly two assertion sites:
`CY_ASSERT(0)` in `main`, executed iff `cybsp_init` returns a result
different from `CY_RSLT_SUCCESS`, and `CY_ASSERT(0)` in
`uart_event_handler`, executed iff the received event bitmask does not
include `CYHAL_UART_IRQ_RX_DONE`. -/
theorem C6_two_assertion_sites (r e : Nat) (f : Bool) :
    (main_init_asserts r = true ↔ r ≠ CY_RSLT_SUCCESS) ∧
    ((uart_event_handler e f).2 = true ↔
      ¬(e &&& CYHAL_UART_IRQ_RX_DONE = CYHAL_UART_IRQ_RX_DONE)) := by
  constructor
  · simp [main_init_asserts]
  · unfold uart_event_handler
    split_ifs with h <;> simp [h]

/-- C7: the only cross-context coordination is `uart_read_flag`: the
UART event handler sets it to true exactly when the event includes
`CYHAL_UART_IRQ_RX_DONE` (leaving it unchanged otherwise), and every
iteration of the main poll loop begins one asynchronous read, invokes
`process_key_press` only when the flag is true, clears the flag before
processing the key, and then sleeps for the fixed delay. -/
theorem C7_flag_coordination (e : Nat) (f : Bool) (ls : LoopState) :
    (e &&& CYHAL_UART_IRQ_RX_DONE = CYHAL_UART_IRQ_RX_DONE →
        (uart_event_handler e f).1 = true) ∧
    (¬(e &&& CYHAL_UART_IRQ_RX_DONE = CYHAL_UART_IRQ_RX_DONE) →
        (uart_event_handler e f).1 = f) ∧
    (ls.uart_read_flag = true →
        main_loop_iter ls =
          ({ ls with pwm := (process_key_press ls.uart_read_value ls.pwm).1,
                     uart_read_flag := false },
           MainEffect.readAsync :: MainEffect.clearReadFlag ::
             ((process_key_press ls.uart_read_value ls.pwm).2.map
                MainEffect.keyEffect ++
              [MainEffect.delayMs DELAY_BETWEEN_READ_MS]))) ∧
    (ls.uart_read_flag = false →
        main_loop_iter ls =
          (ls, [MainEffect.readAsync,
                MainEffect.delayMs DELAY_BETWEEN_READ_MS])) := by
  refine ⟨?_, ?_, ?_, ?_⟩
  · intro h
    simp [uart_event_handler, h]
  · intro h
    simp [uart_event_handler, h]
  · intro h
    simp [main_loop_iter, h]
  · intro h
    simp [main_loop_iter, h]

theorem C7_witness :
    (uart_event_handler 32 false).1 = true ∧
    main_loop_iter ⟨⟨1000, 0, 0⟩, false, 'x'⟩ =
      (⟨⟨1000, 0, 0⟩, false, 'x'⟩,
       [MainEffect.readAsync, MainEffect.delayMs DELAY_BETWEEN_READ_MS]) :=
  ⟨(C7_flag_coordination 32 false ⟨⟨1000, 0, 0⟩, false, 'x'⟩).1 (by decide),
   (C7_flag_coordination 32 false ⟨⟨1000, 0, 0⟩, false, 'x'⟩).2.2.2 rfl⟩

/-- C8: for every character outside {'s','w','a','d'},
`process_key_press` leaves the whole state (including the period)
unchanged, performs no buffer-register write and no swap trigger, and
only prints the wrong-key message and the instructions. -/
theorem C8_unknown_key_no_effect (key : Char) (s : PwmState)
    (h : ¬(key = 's' ∨ key = 'w' ∨ key = 'a' ∨ key = 'd')) :
    process_key_press key s =
      (s, [Effect.printKey key, Effect.printWrongKey,
           Effect.printInstructions]) ∧
    Effect.triggerCaptureOrSwap ∉ (process_key_press key s).2 ∧
    ∀ v : Int, Effect.setCompare0BufVal v ∉ (process_key_press key s).2 ∧
               Effect.setCompare1BufVal v ∉ (process_key_press key s).2 := by
  push_neg at h
  obtain ⟨h1, h2, h3, h4⟩ := h
  rw [process_key_press_other key s h1 h2 h3 h4]
  simp

theorem C8_witness :
    process_key_press 'x' ⟨1000, 500, 500⟩ =
      ((⟨1000, 500, 500⟩ : PwmState),
       [Effect.printKey 'x', Effect.printWrongKey,
        Effect.printInstructions]) :=
  (C8_unknown_key_no_effect 'x' ⟨1000, 500, 500⟩ (by decide)).1

/-- C9 counterexample: under the claim's stated precondition
(100 ≤ compare0_value and compare1_value ≤ period - 100 only), the
composition 'd' then 'a' need not restore the compare pair: at
period = 1000, compare0 = 100, compare1 = 0, the 'd' update clamps
compare1 at zero and the subsequent 'a' update yields (100, 100)
instead of (100, 0). -/
theorem C9_counterexample :
    (100 ≤ (⟨1000, 100, 0⟩ : PwmState).compare0_value ∧
     (⟨1000, 100, 0⟩ : PwmState).compare1_value ≤ ((1000 : Nat) : Int) - 100) ∧
    ((process_key_press 'a' (process_key_press 'd' ⟨1000, 100, 0⟩).1).1.compare0_value,
     (process_key_press 'a' (process_key_press 'd' ⟨1000, 100, 0⟩).1).1.compare1_value)
      ≠ ((⟨1000, 100, 0⟩ : PwmState).compare0_value,
         (⟨1000, 100, 0⟩ : PwmState).compare1_value) := by
  decide

/-- C9 (amended): when both compare values lie in
[100, period - 100] (and period ≤ 2^31 - 101, so the arithmetic is
exact), no clamp fires and the shift commands are mutually inverse:
'a' then 'd', 'd' then 'a', and 'w' then 's' each restore the original
(compare0_value, compare1_value) pair. -/
theorem C9_shift_commands_inverse (s : PwmState)
    (hp : s.period ≤ 2 ^ 31 - 101)
    (h00 : 100 ≤ s.compare0_value)
    (h01 : s.compare0_value ≤ (s.period : Int) - 100)
    (h10 : 100 ≤ s.compare1_value)
    (h11 : s.compare1_value ≤ (s.period : Int) - 100) :
    ((process_key_press 'd' (process_key_press 'a' s).1).1.compare0_value,
     (process_key_press 'd' (process_key_press 'a' s).1).1.compare1_value)
      = (s.compare0_value, s.compare1_value) ∧
    ((process_key_press 'a' (process_key_press 'd' s).1).1.compare0_value,
     (process_key_press 'a' (process_key_press 'd' s).1).1.compare1_value)
      = (s.compare0_value, s.compare1_value) ∧
    ((process_key_press 's' (process_key_press 'w' s).1).1.compare0_value,
     (process_key_press 's' (process_key_press 'w' s).1).1.compare1_value)
      = (s.compare0_value, s.compare1_value) := by
  refine ⟨?_, ?_, ?_⟩
  · have ha := update_a_vals s hp (by omega) (by omega) (by omega) (by omega)
    have hper : (update_a s).period = s.period := update_a_period s
    have hd := update_d_vals (update_a s)
      (by rw [hper]; exact hp)
      (by rw [ha.1]; omega)
      (by rw [ha.1, hper]; omega)
      (by rw [ha.2]; omega)
      (by rw [ha.2, hper]; omega)
    simp only [process_key_press_a, process_key_press_d, finishUpdate]
    rw [hd.1, hd.2, ha.1, ha.2, hper]
    simp only [Prod.mk.injEq]
    constructor <;> omega
  · have hd := update_d_vals s hp (by omega) (by omega) (by omega) (by omega)
    have hper : (update_d s).period = s.period := update_d_period s
    have ha := update_a_vals (update_d s)
      (by rw [hper]; exact hp)
      (by rw [hd.1]; omega)
      (by rw [hd.1, hper]; omega)
      (by rw [hd.2]; omega)
      (by rw [hd.2, hper]; omega)
    simp only [process_key_press_a, process_key_press_d, finishUpdate]
    rw [ha.1, ha.2, hd.1, hd.2, hper]
    simp only [Prod.mk.injEq]
    constructor <;> omega
  · have hw := update_w_vals s hp (by omega) (by omega) (by omega) (by omega)
    have hper : (update_w s).period = s.period := update_w_period s
    have hs := update_s_vals (update_w s)
      (by rw [hper]; exact hp)
      (by rw [hw.1]; omega)
      (by rw [hw.1, hper]; omega)
      (by rw [hw.2]; omega)
      (by rw [hw.2, hper]; omega)
    simp only [process_key_press_s, process_key_press_w, finishUpdate]
    rw [hs.1, hs.2, hw.1, hw.2, hper]
    simp only [Prod.mk.injEq]
    constructor <;> omega

theorem C9_witness :
    ((process_key_press 'd' (process_key_press 'a' ⟨1000, 500, 500⟩).1).1.compare0_value,
     (process_key_press 'd' (process_key_press 'a' ⟨1000, 500, 500⟩).1).1.compare1_value)
      = ((⟨1000, 500, 500⟩ : PwmState).compare0_value,
         (⟨1000, 500, 500⟩ : PwmState).compare1_value) ∧
    ((process_key_press 'a' (process_key_press 'd' ⟨1000, 500, 500⟩).1).1.compare0_value,
     (process_key_press 'a' (process_key_press 'd' ⟨1000, 500, 500⟩).1).1.compare1_value)
      = ((⟨1000, 500, 500⟩ : PwmState).compare0_value,
         (⟨1000, 500, 500⟩ : PwmState).compare1_value) ∧
    ((process_key_press 's' (process_key_press 'w' ⟨1000, 500, 500⟩).1).1.compare0_value,
     (process_key_press 's' (process_key_press 'w' ⟨1000, 500, 500⟩).1).1.compare1_value)
      = ((⟨1000, 500, 500⟩ : PwmState).compare0_value,
         (⟨1000, 500, 500⟩ : PwmState).compare1_value) :=
  C9_shift_commands_inverse ⟨1000, 500, 500⟩
    (by decide) (by decide) (by decide) (by decide) (by decide)

/-- C10: under the preconditions 0 ≤ c ≤ period and
period ≤ 2^31 - 101, the mixed signed/unsigned arithmetic of the
compare updates is exact: adding or subtracting the delta stays inside
the `int32_t` range (no signed overflow), the C comparison
`(uint32_t)(c + delta) > period` agrees with the mathematical
comparison, and storing the `uint32_t` period into an `int32_t`
variable preserves its value. -/
theorem C10_mixed_arithmetic_exact (p : Nat) (c : Int)
    (hp : p ≤ 2 ^ 31 - 101) (hc0 : 0 ≤ c) (hc1 : c ≤ (p : Int)) :
    toInt32c (c + COMPARE_VALUE_DELTA) = c + COMPARE_VALUE_DELTA ∧
    toInt32c (c - COMPARE_VALUE_DELTA) = c - COMPARE_VALUE_DELTA ∧
    (toUInt32c (toInt32c (c + COMPARE_VALUE_DELTA)) > p ↔
      c + COMPARE_VALUE_DELTA > (p : Int)) ∧
    toInt32c (p : Int) = (p : Int) := by
  unfold COMPARE_VALUE_DELTA
  refine ⟨toInt32c_of_bounds _ (by omega) (by omega),
          toInt32c_of_bounds _ (by omega) (by omega), ?_,
          toInt32c_of_bounds _ (by omega) (by omega)⟩
  rw [toInt32c_of_bounds _ (by omega) (by omega)]
  exact toUInt32c_gt_iff _ _ (by omega) (by omega)

theorem C10_witness :
    toInt32c ((500 : Int) + COMPARE_VALUE_DELTA) = 500 + COMPARE_VALUE_DELTA ∧
    toInt32c ((500 : Int) - COMPARE_VALUE_DELTA) = 500 - COMPARE_VALUE_DELTA ∧
    (toUInt32c (toInt32c ((500 : Int) + COMPARE_VALUE_DELTA)) > (1000 : Nat) ↔
      (500 : Int) + COMPARE_VALUE_DELTA > ((1000 : Nat) : Int)) ∧
    toInt32c (((1000 : Nat) : Int)) = ((1000 : Nat) : Int) :=
  C10_mixed_arithmetic_exact 1000 500 (by decide) (by decide) (by decide)

end PwmDualCompare
